import Mathlib

/-!
The command `mesheryctl mesh validate`: a shallow embedding of `validate.go`.

The development embeds `mesheryctl/internal/cli/root/mesh/validate.go`:

* the pieces of the Go standard library the command depends on
  (`strings.Contains`, `url.Values.Set`, `url.Values.Encode`, `url.QueryEscape`,
  `sync.WaitGroup`);
* the body of `validateCmd.RunE`, with every external collaborator
  (configuration, authentication, HTTP transport, SSE conversion) supplied by an
  environment record, and the outbound HTTP requests recorded in a trace;
* `waitForValidateResponse`, whose two goroutines and the waiting caller are
  interleaved by an explicit schedule over a small-step state.

Go strings are modelled by Lean strings, Go errors by their message.
-/

namespace Mesh

/-! ## Go standard library fragments -/

/-- Go `strings.HasPrefix` on the characters of the two strings. -/
def startsWith : List Char → List Char → Bool
  | _, [] => true
  | [], _ :: _ => false
  | c :: s, d :: p => c == d && startsWith s p

/-- Search loop of `strings.Contains`: does `sub` occur in `s` at some offset. -/
def containsChars : List Char → List Char → Bool
  | [], sub => startsWith [] sub
  | c :: s, sub => startsWith (c :: s) sub || containsChars s sub

/-- Go `strings.Contains(s, substr)`. -/
def Contains (s substr : String) : Bool :=
  containsChars s.data substr.data

/-- UTF-8 bytes of one code point (a Go string is its UTF-8 byte sequence). -/
def utf8Bytes (c : Nat) : List Nat :=
  if c < 0x80 then [c]
  else if c < 0x800 then [0xC0 + c / 64, 0x80 + c % 64]
  else if c < 0x10000 then [0xE0 + c / 4096, 0x80 + (c / 64) % 64, 0x80 + c % 64]
  else [0xF0 + c / 262144, 0x80 + (c / 4096) % 64, 0x80 + (c / 64) % 64, 0x80 + c % 64]

/-- Go `url.shouldEscape(c, encodeQueryComponent)` on a byte. -/
def shouldEscape (b : Nat) : Bool :=
  if (97 ≤ b && b ≤ 122) || (65 ≤ b && b ≤ 90) || (48 ≤ b && b ≤ 57) then false
  else if b == 45 || b == 95 || b == 46 || b == 126 then false
  else true

/-- Upper-case hexadecimal digit, the table `"0123456789ABCDEF"` of `net/url`. -/
def upperhex (n : Nat) : Char :=
  if n < 10 then Char.ofNat (48 + n) else Char.ofNat (55 + n)

/-- Escaping of one byte in `url.escape` with mode `encodeQueryComponent`. -/
def escapeByte (b : Nat) : List Char :=
  if shouldEscape b then
    if b == 32 then ['+'] else ['%', upperhex (b / 16), upperhex (b % 16)]
  else [Char.ofNat b]

/-- Go `url.QueryEscape`. -/
def QueryEscape (s : String) : String :=
  String.mk ((s.data.flatMap (fun c => utf8Bytes c.toNat)).flatMap escapeByte)

/-- Go `url.Values`: a map from a key to its list of values. -/
abbrev Values := List (String × List String)

/-- Go `url.Values.Set`: the key is bound to the single value, replacing what was there. -/
def Values.Set : Values → String → String → Values
  | [], key, value => [(key, [value])]
  | (k, vs) :: rest, key, value =>
    if k = key then (key, [value]) :: rest else (k, vs) :: Values.Set rest key value

/-- Go `url.Values.Get`: the first value bound to the key, or the empty string. -/
def Values.Get : Values → String → String
  | [], _ => ""
  | (k, vs) :: rest, key => if k = key then vs.headD "" else Values.Get rest key

/-- Byte-wise string order used by `sort.Strings` (code point order agrees with it). -/
def strLess : List Char → List Char → Bool
  | [], [] => false
  | [], _ :: _ => true
  | _ :: _, [] => false
  | c :: s, d :: t => c.toNat < d.toNat || (c.toNat == d.toNat && strLess s t)

/-- Insertion of one map entry into a list of entries ordered by key. -/
def insertByKey (e : String × List String) : Values → Values
  | [] => [e]
  | x :: rest => if strLess x.1.data e.1.data then x :: insertByKey e rest else e :: x :: rest

/-- The entries of the map in the order of `sort.Strings` applied to the keys. -/
def sortByKey : Values → Values
  | [] => []
  | e :: rest => insertByKey e (sortByKey rest)

/-- The `key=value` pieces written by `url.Values.Encode` for one key. -/
def encodeEntry (e : String × List String) : List String :=
  e.2.map (fun v => QueryEscape e.1 ++ "=" ++ QueryEscape v)

/-- Writes of `Encode` into its buffer: an ampersand goes before every piece but the first. -/
def joinPieces : List String → String
  | [] => ""
  | [p] => p
  | p :: q :: rest => p ++ "&" ++ joinPieces (q :: rest)

/-- Go `url.Values.Encode`: keys sorted, pieces joined by `&`. -/
def Values.Encode (v : Values) : String :=
  joinPieces ((sortByKey v).flatMap encodeEntry)

/-! ## Data of `validate.go` -/

/-- Go error value (its message), or the absence of one. -/
inductive Result where
  | nil : Result
  | error (msg : String) : Result
  | panic (msg : String) : Result
deriving DecidableEq, Repr

/-- Package-level variables of `validate.go` bound by the command-line flags (lines 28-32). -/
structure Flags where
  spec : String
  adapterURL : String
  namespaceVar : String
  tokenPath : String
  watch : Bool
deriving DecidableEq, Repr

/-- Data set up for the `/api/mesh/ops` form before the specification is chosen (lines 84-88). -/
def formData (adapterURL : String) : Values :=
  Values.Set (Values.Set (Values.Set (Values.Set [] "adapter" adapterURL) "customBody" "")
    "deleteOp" "") "namespace" "meshery"

/-- The `switch spec` of `RunE` (lines 91-113): the form with its query, or the error returned. -/
def specSwitch (spec adapterURL : String) (data : Values) : Except String Values :=
  if spec = "smi" then
    .ok (Values.Set data "query" "smi_conformance")
  else if spec = "smp" then
    .error "support for SMP coming in a future release"
  else if spec = "istio-vet" then
    if adapterURL = "meshery-istio:10000" then
      .ok (Values.Set data "query" "istio-vet")
    else
      .error "only Istio supports istio-vet operation"
  else
    .error "specified specification not found or not yet supported"

/-- Entry of the event channel returned by `utils.ConvertRespToSSE`; only `Data` is read. -/
structure Event where
  Data : String
deriving DecidableEq, Repr

/-- Result of `config.GetMesheryCtl`; only the base URL is read. -/
structure MesheryCtlConfig where
  baseMesheryURL : String
deriving DecidableEq, Repr

/-- Go `http.Request` as far as the command builds it. -/
structure Request where
  method : String
  url : String
  header : List (String × String)
  body : String
deriving DecidableEq, Repr

/-- Go `http.Response`: the body the server delivers. -/
structure Response where
  body : String
deriving DecidableEq, Repr

/-- Outcomes of the collaborators of `validate.go` that live outside the file. -/
structure Env where
  /-- Outcome of `config.GetMesheryCtl(viper.GetViper())`. -/
  getMesheryCtl : Except String MesheryCtlConfig
  /-- Error of `http.NewRequest` for a method and a URL, if any. -/
  newRequestErr : String → String → Option String
  /-- Outcome of `utils.AddAuthDetails(req, tokenPath)`: the header entries it attaches. -/
  addAuthDetails : Request → String → Except String (List (String × String))
  /-- Outcome of `client.Do(req)`. -/
  clientDo : Request → Except String Response
  /-- Outcome of `ioutil.ReadAll(res.Body)`. -/
  readAll : Response → Except String String
  /-- Outcome of `utils.ConvertRespToSSE(res)`: the events delivered on the channel before it
  stops delivering (closed or not), and the error value returned next to the channel. -/
  convertRespToSSE : Response → List Event × Option String

/-- Go `http.NewRequest(method, url, body)`. -/
def NewRequest (env : Env) (method url body : String) : Except String Request :=
  match env.newRequestErr method url with
  | some e => .error e
  | none => .ok { method := method, url := url, header := [], body := body }

/-- Go `req.Header.Add(key, value)`. -/
def Request.headerAdd (req : Request) (key value : String) : Request :=
  { req with header := req.header ++ [(key, value)] }

/-- Call of `utils.AddAuthDetails(req, tokenPath)`, which mutates the request. -/
def AddAuthDetails (env : Env) (req : Request) (tokenPath : String) : Except String Request :=
  match env.addAuthDetails req tokenPath with
  | .error e => .error e
  | .ok hs => .ok { req with header := req.header ++ hs }

/-! ## `waitForValidateResponse`: the wait group and the two goroutines -/

/-- Program counter of the timeout goroutine (lines 202-206). -/
inductive TimerPc where
  | sleeping : TimerPc
  | errSet : TimerPc
  | finished : TimerPc
deriving DecidableEq, Repr

/-- Program counter of the caller from `wg.Wait()` on (lines 209-215). -/
inductive MainPc where
  | waiting : MainPc
  | woken : MainPc
  | returned (r : Result) : MainPc
deriving DecidableEq, Repr

/-- The thread that takes the next step. -/
inductive Action where
  | matcher : Action
  | timer : Action
  | main : Action
deriving DecidableEq, Repr

/-- Shared state of `waitForValidateResponse` once both goroutines are started. -/
structure WatchState where
  /-- Counter of the `sync.WaitGroup`. -/
  counter : Int
  /-- Events of the channel the matcher goroutine has not received yet. -/
  pending : List Event
  /-- Number of events the matcher goroutine has received. -/
  consumed : Nat
  timer : TimerPc
  main : MainPc
  /-- The variable `err`, written by the timeout goroutine and read by the caller. -/
  err : Option String
  /-- A goroutine has panicked: the process is gone. -/
  panicked : Bool
deriving DecidableEq, Repr

/-- State after `wg.Add(1)` and the start of both goroutines; `err` is nil there. -/
def initWatch (event : List Event) : WatchState :=
  { counter := 1, pending := event, consumed := 0, timer := .sleeping, main := .waiting,
    err := none, panicked := false }

/-- Go `wg.Done()`: the counter is decremented, and a negative counter panics. -/
def wgDone (s : WatchState) : WatchState :=
  { s with counter := s.counter - 1, panicked := decide (s.counter - 1 < 0) }

/-- One iteration of `for i := range event` (lines 193-198). -/
def matcherStep (query : String) (s : WatchState) : WatchState :=
  match s.pending with
  | [] => s
  | i :: rest =>
    let s1 := { s with pending := rest, consumed := s.consumed + 1 }
    if Contains i.Data query then wgDone s1 else s1

/-- One statement of the timeout goroutine after its sleep (lines 204-205). -/
def timerStep (s : WatchState) : WatchState :=
  match s.timer with
  | .sleeping => { s with timer := .errSet, err := some "timeout" }
  | .errSet => wgDone { s with timer := .finished }
  | .finished => s

/-- One statement of the caller: `wg.Wait()` returning, then the test of `err` (lines 209-215). -/
def mainStep (s : WatchState) : WatchState :=
  match s.main with
  | .waiting => if s.counter = 0 then { s with main := .woken } else s
  | .woken =>
    match s.err with
    | some e => { s with main := .returned (.error e) }
    | none => { s with main := .returned .nil }
  | .returned _ => s

/-- One scheduled step; nothing runs once a goroutine has panicked. -/
def step (query : String) (s : WatchState) (a : Action) : WatchState :=
  if s.panicked then s
  else match a with
    | .matcher => matcherStep query s
    | .timer => timerStep s
    | .main => mainStep s

/-- The state reached from `s` under a schedule. -/
def runSchedule (query : String) (s : WatchState) (sched : List Action) : WatchState :=
  sched.foldl (step query) s

/-- What the caller of `waitForValidateResponse` has got in a state: the error it returned, a
crash of the process, or nothing yet while it is still blocked. -/
def watchOutcome (s : WatchState) : Option Result :=
  match s.main with
  | .returned r => some r
  | _ => if s.panicked then some (.panic "sync: negative WaitGroup counter") else none

/-- Lines 189-215 of `waitForValidateResponse`: the race over the events of the channel. -/
def watchEvents (event : List Event) (query : String) (sched : List Action) : Option Result :=
  watchOutcome (runSchedule query (initWatch event) sched)

/-- The function `waitForValidateResponse` (lines 166-216): its error result under a schedule of
the goroutines, and the requests handed to `client.Do`. -/
def waitForValidateResponse (env : Env) (f : Flags) (mctlCfg : MesheryCtlConfig)
    (query : String) (sched : List Action) : Option Result × List Request :=
  match NewRequest env "GET" (mctlCfg.baseMesheryURL ++ "/api/events?client=cli_validate") "" with
  | .error _ => (some (.panic "invalid memory address or nil pointer dereference"), [])
  | .ok req0 =>
    match AddAuthDetails env (req0.headerAdd "Accept" "text/event-stream") f.tokenPath with
    | .error e => (some (.error e), [])
    | .ok req =>
      match env.clientDo req with
      | .error e => (some (.error e), [req])
      | .ok res => (watchEvents (env.convertRespToSSE res).1 query sched, [req])

/-! ## `validateCmd.RunE` -/

/-- Lines 51-77 of `RunE`: configuration and the sync request. -/
def syncPhase (env : Env) (f : Flags) : Except String MesheryCtlConfig × List Request :=
  match env.getMesheryCtl with
  | .error e => (.error ("error processing config: " ++ e), [])
  | .ok mctlCfg =>
    match NewRequest env "GET" (mctlCfg.baseMesheryURL ++ "/api/system/sync") "" with
    | .error e => (.error e, [])
    | .ok syncReq0 =>
      match AddAuthDetails env
          (syncReq0.headerAdd "Content-Type" "application/x-www-form-urlencoded;charset=UTF-8")
          f.tokenPath with
      | .error e => (.error e, [])
      | .ok syncReq =>
        match env.clientDo syncReq with
        | .error e => (.error e, [syncReq])
        | .ok _ => (.ok mctlCfg, [syncReq])

/-- Lines 115-140 of `RunE`: the POST of the encoded form to `/api/mesh/ops`. -/
def opsPhase (env : Env) (f : Flags) (mctlCfg : MesheryCtlConfig) (data : Values) :
    Except String String × List Request :=
  match NewRequest env "POST" (mctlCfg.baseMesheryURL ++ "/api/mesh/ops") (Values.Encode data) with
  | .error e => (.error e, [])
  | .ok req0 =>
    match AddAuthDetails env
        (req0.headerAdd "Content-Type" "application/x-www-form-urlencoded;charset=UTF-8")
        f.tokenPath with
    | .error e => (.error e, [])
    | .ok req =>
      match env.clientDo req with
      | .error e => (.error e, [req])
      | .ok res =>
        match env.readAll res with
        | .error e => (.error e, [req])
        | .ok body => (.ok body, [req])

/-- Lines 142-152 of `RunE`: the optional watch and the wrapping of its error. -/
def watchPhase (env : Env) (f : Flags) (mctlCfg : MesheryCtlConfig) (sched : List Action) :
    Option Result × List Request :=
  if f.watch then
    match waitForValidateResponse env f mctlCfg "Smi conformance test" sched with
    | (some (.error e), tr) => (some (.error ("error verifying installation: " ++ e)), tr)
    | (r, tr) => (r, tr)
  else (some .nil, [])

/-- The function `validateCmd.RunE` (lines 47-153): the error it returns (`none` while the caller
is still blocked in `wg.Wait()` under the schedule) and the requests handed to `client.Do`. -/
def RunE (env : Env) (f : Flags) (sched : List Action) : Option Result × List Request :=
  match syncPhase env f with
  | (.error e, tr) => (some (.error e), tr)
  | (.ok mctlCfg, tr) =>
    match specSwitch f.spec f.adapterURL (formData f.adapterURL) with
    | .error e => (some (.error e), tr)
    | .ok data =>
      match opsPhase env f mctlCfg data with
      | (.error e, tr2) => (some (.error e), tr ++ tr2)
      | (.ok _, tr2) =>
        let w := watchPhase env f mctlCfg sched
        (w.1, tr ++ tr2 ++ w.2)

/-! ## Concrete inputs -/

/-- An environment in which every collaborator succeeds and the channel delivers `event`. -/
def okEnv (event : List Event) (convErr : Option String) : Env :=
  { getMesheryCtl := .ok { baseMesheryURL := "http://localhost:9081" }
    newRequestErr := fun _ _ => none
    addAuthDetails := fun _ tokenPath => .ok [("Authorization", tokenPath)]
    clientDo := fun req => .ok { body := req.url }
    readAll := fun res => .ok res.body
    convertRespToSSE := fun _ => (event, convErr) }

/-- The environment `okEnv` with a server that refuses every connection. -/
def refusedEnv : Env :=
  { okEnv [] none with clientDo := fun _ => .error "connection refused" }

/-- The environment `okEnv` without a readable configuration. -/
def noConfigEnv : Env :=
  { okEnv [] none with getMesheryCtl := .error "no config" }

/-- The flags of `mesheryctl mesh validate --spec s --adapter a --tokenPath auth.json`. -/
def flagsOf (spec adapterURL : String) (watch : Bool) : Flags :=
  { spec := spec, adapterURL := adapterURL, namespaceVar := "", tokenPath := "auth.json",
    watch := watch }

/-! ## Classification of requests and errors -/

/-- Go `strings.HasSuffix`. -/
def hasSuffix (s suffix : String) : Bool :=
  startsWith s.data.reverse suffix.data.reverse

/-- The request is the GET to `/api/system/sync`. -/
def isSyncRequest (r : Request) : Prop :=
  r.method = "GET" ∧ hasSuffix r.url "/api/system/sync" = true

/-- The request is the POST to `/api/mesh/ops`. -/
def isOpsRequest (r : Request) : Prop :=
  r.method = "POST" ∧ hasSuffix r.url "/api/mesh/ops" = true

/-- The request is the GET that opens the event stream. -/
def isEventsRequest (r : Request) : Prop :=
  r.method = "GET" ∧ hasSuffix r.url "/api/events?client=cli_validate" = true

instance (r : Request) : Decidable (isSyncRequest r) := by
  unfold isSyncRequest; infer_instance

instance (r : Request) : Decidable (isOpsRequest r) := by
  unfold isOpsRequest; infer_instance

instance (r : Request) : Decidable (isEventsRequest r) := by
  unfold isEventsRequest; infer_instance

/-- The two messages with which `RunE` refuses a specification it does not support
(lines 99 and 111); the specification calls this outcome `UnsupportedSpecError`. -/
def UnsupportedSpecError (e : String) : Prop :=
  e = "support for SMP coming in a future release" ∨
    e = "specified specification not found or not yet supported"

/-- The message with which `RunE` refuses `istio-vet` on another adapter (line 107); the
specification calls this outcome `InvalidAdapterError`. -/
def InvalidAdapterError (e : String) : Prop :=
  e = "only Istio supports istio-vet operation"

/-- Invariant of the race while no event of the channel contains the query. -/
def NoMatchInv (query : String) (s : WatchState) : Prop :=
  (∀ e ∈ s.pending, Contains e.Data query = false) ∧ s.panicked = false ∧
  (s.timer = .sleeping → s.counter = 1) ∧
  (s.timer = .errSet → s.counter = 1 ∧ s.err = some "timeout") ∧
  (s.timer = .finished → s.counter = 0 ∧ s.err = some "timeout") ∧
  (s.main = .woken → s.timer = .finished) ∧
  (∀ r, s.main = .returned r → s.timer = .finished ∧ r = .error "timeout")

/-! ## Lemmas on the race -/

theorem runSchedule_append (query : String) (s : WatchState) (a b : List Action) :
    runSchedule query s (a ++ b) = runSchedule query (runSchedule query s a) b := by
  simp [runSchedule, List.foldl_append]

theorem noMatchInv_init (query : String) (event : List Event)
    (hno : ∀ e ∈ event, Contains e.Data query = false) : NoMatchInv query (initWatch event) := by
  simp [NoMatchInv, initWatch]
  exact hno

theorem noMatchInv_step (query : String) (s : WatchState) (a : Action)
    (h : NoMatchInv query s) : NoMatchInv query (step query s a) := by
  obtain ⟨counter, pending, consumed, timer, main, err, panicked⟩ := s
  obtain ⟨hp, hpan, h1, h2, h3, h4, h5⟩ := h
  simp only at hp hpan h1 h2 h3 h4 h5
  subst hpan
  cases a with
  | matcher =>
    cases pending with
    | nil => simp [NoMatchInv, step, matcherStep]; exact ⟨h1, h2, h3, h4, h5⟩
    | cons i rest =>
      have hi : Contains i.Data query = false := hp i (by simp)
      have hr : ∀ e ∈ rest, Contains e.Data query = false := fun e he => hp e (by simp [he])
      simp [NoMatchInv, step, matcherStep, hi]
      exact ⟨hr, h1, h2, h3, h4, h5⟩
  | timer =>
    cases timer with
    | sleeping =>
      have hc := h1 rfl
      cases main <;> simp_all [NoMatchInv, step, timerStep]
    | errSet =>
      have hc := h2 rfl
      cases main <;> simp_all [NoMatchInv, step, timerStep, wgDone]
    | finished =>
      have hc := h3 rfl
      cases main <;> simp_all [NoMatchInv, step, timerStep]
  | main =>
    cases main with
    | waiting =>
      cases timer <;> simp_all [NoMatchInv, step, mainStep]
    | woken =>
      have ht := h4 rfl
      subst ht
      have he := (h3 rfl).2
      subst he
      simp [NoMatchInv, step, mainStep]
      exact ⟨hp, (h3 rfl).1⟩
    | returned r =>
      have hr := h5 r rfl
      cases timer <;> simp_all [NoMatchInv, step, mainStep]

theorem noMatchInv_run (query : String) (sched : List Action) :
    ∀ s, NoMatchInv query s → NoMatchInv query (runSchedule query s sched) := by
  induction sched with
  | nil => intro s h; simpa [runSchedule] using h
  | cons a rest ih =>
    intro s h
    have := ih (step query s a) (noMatchInv_step query s a h)
    simpa [runSchedule] using this

theorem noMatchInv_outcome (query : String) (s : WatchState) (h : NoMatchInv query s) :
    watchOutcome s = none ∨ watchOutcome s = some (.error "timeout") := by
  obtain ⟨counter, pending, consumed, timer, main, err, panicked⟩ := s
  obtain ⟨hp, hpan, h1, h2, h3, h4, h5⟩ := h
  simp only at hp hpan h1 h2 h3 h4 h5
  subst hpan
  cases main with
  | waiting => left; simp [watchOutcome]
  | woken => left; simp [watchOutcome]
  | returned r => right; simp [watchOutcome, (h5 r rfl).2]

theorem noMatchInv_timer_fires (query : String) (s : WatchState) (h : NoMatchInv query s) :
    watchOutcome (runSchedule query s [.timer, .timer, .main, .main])
      = some (.error "timeout") := by
  obtain ⟨counter, pending, consumed, timer, main, err, panicked⟩ := s
  obtain ⟨hp, hpan, h1, h2, h3, h4, h5⟩ := h
  simp only at hp hpan h1 h2 h3 h4 h5
  subst hpan
  cases timer <;> cases main <;>
    simp_all [runSchedule, step, timerStep, mainStep, wgDone, watchOutcome]

/-! ## Lemmas on the requests of a run -/

theorem startsWith_append (p : List Char) :
    ∀ a b : List Char, p.length ≤ a.length → startsWith (a ++ b) p = startsWith a p := by
  induction p with
  | nil => intro a b _; cases a <;> cases b <;> simp [startsWith]
  | cons d p ih =>
    intro a b h
    cases a with
    | nil => simp at h
    | cons c a =>
      simp only [List.length_cons, Nat.add_le_add_iff_right] at h
      simp [startsWith, ih a b h]

theorem hasSuffix_append (base path suffix : String)
    (h : suffix.data.length ≤ path.data.length) :
    hasSuffix (base ++ path) suffix = hasSuffix path suffix := by
  simp only [hasSuffix, String.data_append, List.reverse_append]
  exact startsWith_append _ _ _ (by simpa using h)

theorem startsWith_head_ne (c d : Char) (p q : List Char) (hcd : c ≠ d) :
    ∀ l : List Char, startsWith l (c :: p) = true → startsWith l (d :: q) = false := by
  intro l h
  cases l with
  | nil => simp [startsWith]
  | cons x l =>
    simp only [startsWith, Bool.and_eq_true, beq_iff_eq] at h
    have hx : x ≠ d := by rw [h.1]; exact hcd
    simp [startsWith, hx]

theorem sync_not_events (r : Request) (h : isSyncRequest r) : ¬ isEventsRequest r := by
  intro he
  have h1 : "/api/system/sync".data.reverse = 'c' :: "/api/system/syn".data.reverse := by decide
  have h2 : "/api/events?client=cli_validate".data.reverse
      = 'e' :: "/api/events?client=cli_validat".data.reverse := by decide
  have hs := h.2
  have hv := he.2
  simp only [hasSuffix, h1, h2] at hs hv
  have := startsWith_head_ne 'c' 'e' _ "/api/events?client=cli_validat".data.reverse
    (by decide) _ hs
  rw [this] at hv
  exact Bool.noConfusion hv

theorem sync_not_ops (r : Request) (h : isSyncRequest r) : ¬ isOpsRequest r := by
  intro ho
  have := h.1.symm.trans ho.1
  exact absurd this (by decide)

theorem ops_not_events (r : Request) (h : isOpsRequest r) : ¬ isEventsRequest r := by
  intro he
  have := he.1.symm.trans h.1
  exact absurd this (by decide)

theorem NewRequest_ok (env : Env) (method url body : String) (req : Request)
    (h : NewRequest env method url body = .ok req) :
    req.method = method ∧ req.url = url ∧ req.body = body := by
  unfold NewRequest at h
  split at h
  · cases h
  · cases h; exact ⟨rfl, rfl, rfl⟩

theorem AddAuthDetails_ok (env : Env) (req0 req : Request) (tokenPath : String)
    (h : AddAuthDetails env req0 tokenPath = .ok req) :
    req.method = req0.method ∧ req.url = req0.url ∧ req.body = req0.body := by
  unfold AddAuthDetails at h
  split at h
  · cases h
  · cases h; exact ⟨rfl, rfl, rfl⟩

theorem built_request (env : Env) (method url body key value tokenPath : String)
    (req0 req : Request) (h0 : NewRequest env method url body = .ok req0)
    (h1 : AddAuthDetails env (req0.headerAdd key value) tokenPath = .ok req) :
    req.method = method ∧ req.url = url ∧ req.body = body := by
  obtain ⟨a1, a2, a3⟩ := NewRequest_ok env method url body req0 h0
  obtain ⟨b1, b2, b3⟩ := AddAuthDetails_ok env _ req tokenPath h1
  simp only [Request.headerAdd] at b1 b2 b3
  exact ⟨b1.trans a1, b2.trans a2, b3.trans a3⟩

theorem syncPhase_trace (env : Env) (f : Flags) :
    ∀ r ∈ (syncPhase env f).2, isSyncRequest r := by
  intro r hr
  unfold syncPhase at hr
  split at hr
  · simp at hr
  · rename_i mctlCfg _
    have hsuf : hasSuffix (mctlCfg.baseMesheryURL ++ "/api/system/sync") "/api/system/sync"
        = true := by
      rw [hasSuffix_append _ _ _ (by decide)]; decide
    split at hr
    · simp at hr
    · rename_i req0 h0
      split at hr
      · simp at hr
      · rename_i req h1
        obtain ⟨m, u, _⟩ := built_request env _ _ _ _ _ _ req0 req h0 h1
        have hreq : isSyncRequest req := ⟨m, by rw [u]; exact hsuf⟩
        split at hr <;> simp at hr <;> subst hr <;> exact hreq

theorem opsPhase_trace (env : Env) (f : Flags) (mctlCfg : MesheryCtlConfig) (data : Values) :
    ∀ r ∈ (opsPhase env f mctlCfg data).2, isOpsRequest r ∧ r.body = Values.Encode data := by
  intro r hr
  unfold opsPhase at hr
  have hsuf : hasSuffix (mctlCfg.baseMesheryURL ++ "/api/mesh/ops") "/api/mesh/ops" = true := by
    rw [hasSuffix_append _ _ _ (by decide)]; decide
  split at hr
  · simp at hr
  · rename_i req0 h0
    split at hr
    · simp at hr
    · rename_i req h1
      obtain ⟨m, u, b⟩ := built_request env _ _ _ _ _ _ req0 req h0 h1
      have hreq : isOpsRequest req ∧ req.body = Values.Encode data :=
        ⟨⟨m, by rw [u]; exact hsuf⟩, b⟩
      split at hr
      · simp at hr; subst hr; exact hreq
      · split at hr <;> simp at hr <;> subst hr <;> exact hreq

theorem waitForValidateResponse_trace (env : Env) (f : Flags) (mctlCfg : MesheryCtlConfig)
    (query : String) (sched : List Action) :
    ∀ r ∈ (waitForValidateResponse env f mctlCfg query sched).2, isEventsRequest r := by
  intro r hr
  unfold waitForValidateResponse at hr
  have hsuf : hasSuffix (mctlCfg.baseMesheryURL ++ "/api/events?client=cli_validate")
      "/api/events?client=cli_validate" = true := by
    rw [hasSuffix_append _ _ _ (by decide)]; decide
  split at hr
  · simp at hr
  · rename_i req0 h0
    split at hr
    · simp at hr
    · rename_i req h1
      obtain ⟨m, u, _⟩ := built_request env _ _ _ _ _ _ req0 req h0 h1
      have hreq : isEventsRequest req := ⟨m, by rw [u]; exact hsuf⟩
      split at hr <;> simp at hr <;> subst hr <;> exact hreq

/-- The map held by `data` when line 115 is reached: the four entries of lines 85-88 and the
query chosen by the switch. -/
def opsForm (adapterURL query : String) : Values :=
  [("adapter", [adapterURL]), ("customBody", [""]), ("deleteOp", [""]),
    ("namespace", ["meshery"]), ("query", [query])]

theorem formData_set_query (adapterURL query : String) :
    Values.Set (formData adapterURL) "query" query = opsForm adapterURL query := by
  simp [formData, Values.Set, opsForm]

theorem sortByKey_opsForm (adapterURL query : String) :
    sortByKey (opsForm adapterURL query) = opsForm adapterURL query := by
  have g1 : strLess "customBody".data "adapter".data = false := by decide
  have g2 : strLess "deleteOp".data "customBody".data = false := by decide
  have g3 : strLess "namespace".data "deleteOp".data = false := by decide
  have g4 : strLess "query".data "namespace".data = false := by decide
  simp [opsForm, sortByKey, insertByKey, g1, g2, g3, g4]

theorem encode_opsForm (adapterURL query : String) :
    Values.Encode (opsForm adapterURL query)
      = "adapter=" ++ QueryEscape adapterURL ++ "&customBody=&deleteOp=&namespace=meshery&query="
          ++ QueryEscape query := by
  have k1 : QueryEscape "adapter" = "adapter" := by decide
  have k2 : QueryEscape "customBody" = "customBody" := by decide
  have k3 : QueryEscape "deleteOp" = "deleteOp" := by decide
  have k4 : QueryEscape "namespace" = "namespace" := by decide
  have k5 : QueryEscape "query" = "query" := by decide
  have k6 : QueryEscape "" = "" := by decide
  have k7 : QueryEscape "meshery" = "meshery" := by decide
  unfold Values.Encode
  rw [sortByKey_opsForm]
  simp only [opsForm, List.flatMap_cons, List.flatMap_nil, encodeEntry, List.map_cons,
    List.map_nil, List.append_nil, List.cons_append, List.nil_append, joinPieces, k1, k2, k3, k4,
    k5, k6, k7]
  apply String.ext
  simp [String.data_append]

theorem specSwitch_ok (spec adapterURL : String) (data : Values)
    (h : specSwitch spec adapterURL (formData adapterURL) = .ok data) :
    (spec = "smi" ∧ data = opsForm adapterURL "smi_conformance") ∨
      (spec = "istio-vet" ∧ adapterURL = "meshery-istio:10000" ∧
        data = opsForm adapterURL "istio-vet") := by
  unfold specSwitch at h
  split at h
  · rename_i hs
    left
    rw [formData_set_query] at h
    cases h
    exact ⟨hs, rfl⟩
  · split at h
    · cases h
    · split at h
      · rename_i hs
        split at h
        · rename_i ha
          right
          rw [formData_set_query] at h
          cases h
          exact ⟨hs, ha, rfl⟩
        · cases h
      · cases h

theorem syncPhase_ok_trace (env : Env) (f : Flags) (mctlCfg : MesheryCtlConfig)
    (tr : List Request) (h : syncPhase env f = (.ok mctlCfg, tr)) :
    ∃ r, tr = [r] ∧ isSyncRequest r := by
  have ht := syncPhase_trace env f
  rw [h] at ht
  unfold syncPhase at h
  split at h
  · cases h
  · split at h
    · cases h
    · split at h
      · cases h
      · split at h
        · cases h
        · cases h
          exact ⟨_, rfl, ht _ (by simp)⟩

theorem syncPhase_trace_length (env : Env) (f : Flags) : (syncPhase env f).2.length ≤ 1 := by
  unfold syncPhase
  repeat (first | split | simp)

theorem RunE_refused (env : Env) (f : Flags) (sched : List Action) (e : String)
    (h : specSwitch f.spec f.adapterURL (formData f.adapterURL) = .error e) :
    (RunE env f sched).2 = (syncPhase env f).2 ∧
      (∃ e2, (RunE env f sched).1 = some (.error e2)) ∧
      ∀ mctlCfg tr, syncPhase env f = (.ok mctlCfg, tr) →
        RunE env f sched = (some (.error e), tr) := by
  unfold RunE
  rcases hs : syncPhase env f with ⟨(e1 | mctlCfg), tr⟩
  · simp
  · simp [h]

theorem watchPhase_trace (env : Env) (f : Flags) (mctlCfg : MesheryCtlConfig)
    (sched : List Action) :
    ∀ r ∈ (watchPhase env f mctlCfg sched).2, isEventsRequest r ∧ f.watch = true := by
  intro r hr
  unfold watchPhase at hr
  split at hr
  · rename_i hw
    have ht := waitForValidateResponse_trace env f mctlCfg "Smi conformance test" sched
    split at hr
    · rename_i e tr heq
      rw [heq] at ht
      exact ⟨ht r hr, hw⟩
    · rename_i r0 tr _ heq
      rw [heq] at ht
      exact ⟨ht r hr, hw⟩
  · simp at hr

theorem RunE_trace (env : Env) (f : Flags) (sched : List Action) :
    ∀ r ∈ (RunE env f sched).2, isSyncRequest r ∨
      ∃ data, specSwitch f.spec f.adapterURL (formData f.adapterURL) = .ok data ∧
        ((isOpsRequest r ∧ r.body = Values.Encode data) ∨ (isEventsRequest r ∧ f.watch = true)) := by
  intro r hr
  unfold RunE at hr
  have hsync := syncPhase_trace env f
  rcases hs : syncPhase env f with ⟨(e1 | mctlCfg), tr⟩
  · rw [hs] at hr hsync
    exact Or.inl (hsync r hr)
  · rw [hs] at hr hsync
    simp only at hr hsync
    rcases hv : specSwitch f.spec f.adapterURL (formData f.adapterURL) with e2 | data
    · rw [hv] at hr
      exact Or.inl (hsync r hr)
    · rw [hv] at hr
      simp only at hr
      have hops := opsPhase_trace env f mctlCfg data
      rcases ho : opsPhase env f mctlCfg data with ⟨(e3 | body), tr2⟩
      · rw [ho] at hr hops
        simp only [List.mem_append] at hr
        rcases hr with hr | hr
        · exact Or.inl (hsync r hr)
        · exact Or.inr ⟨data, rfl, Or.inl (hops r hr)⟩
      · rw [ho] at hr hops
        simp only [List.mem_append] at hr
        rcases hr with (hr | hr) | hr
        · exact Or.inl (hsync r hr)
        · exact Or.inr ⟨data, rfl, Or.inl (hops r hr)⟩
        · exact Or.inr ⟨data, rfl, Or.inr (watchPhase_trace env f mctlCfg sched r hr)⟩

theorem RunE_ops_body (env : Env) (f : Flags) (sched : List Action) (r : Request)
    (hr : r ∈ (RunE env f sched).2) (hops : isOpsRequest r) :
    ∃ data, specSwitch f.spec f.adapterURL (formData f.adapterURL) = .ok data ∧
      r.body = Values.Encode data := by
  rcases RunE_trace env f sched r hr with h | ⟨data, hv, h | h⟩
  · exact absurd hops (sync_not_ops r h)
  · exact ⟨data, hv, h.2⟩
  · exact absurd h.1 (ops_not_events r hops)

theorem RunE_refused_trace (env : Env) (f : Flags) (sched : List Action) (e : String)
    (h : specSwitch f.spec f.adapterURL (formData f.adapterURL) = .error e) :
    ∀ r ∈ (RunE env f sched).2, isSyncRequest r ∧ ¬ isOpsRequest r ∧ ¬ isEventsRequest r := by
  intro r hr
  rw [(RunE_refused env f sched e h).1] at hr
  have hs := syncPhase_trace env f r hr
  exact ⟨hs, sync_not_ops r hs, sync_not_events r hs⟩

theorem waitForValidateResponse_ok (env : Env) (f : Flags) (mctlCfg : MesheryCtlConfig)
    (query : String) (sched : List Action) (req0 req : Request) (res : Response)
    (h0 : NewRequest env "GET" (mctlCfg.baseMesheryURL ++ "/api/events?client=cli_validate") ""
      = .ok req0)
    (h1 : AddAuthDetails env (req0.headerAdd "Accept" "text/event-stream") f.tokenPath = .ok req)
    (h2 : env.clientDo req = .ok res) :
    waitForValidateResponse env f mctlCfg query sched
      = (watchEvents (env.convertRespToSSE res).1 query sched, [req]) := by
  simp [waitForValidateResponse, h0, h1, h2]

theorem step_timer_of_ne (query : String) (s : WatchState) (a : Action) (ha : a ≠ .timer) :
    (step query s a).timer = s.timer := by
  unfold step
  split
  · rfl
  · cases a with
    | matcher =>
      simp only [matcherStep]
      split
      · rfl
      · split <;> rfl
    | timer => exact absurd rfl ha
    | main =>
      simp only [mainStep]
      split
      · split <;> rfl
      · split <;> rfl
      · rfl

theorem runSchedule_timer_of_not_mem (query : String) (sched : List Action) :
    ∀ s, Action.timer ∉ sched → (runSchedule query s sched).timer = s.timer := by
  induction sched with
  | nil => intro s _; rfl
  | cons a rest ih =>
    intro s h
    have ha : a ≠ .timer := fun e => h (by simp [e])
    have hrest : Action.timer ∉ rest := fun e => h (by simp [e])
    have := ih (step query s a) hrest
    rw [step_timer_of_ne query s a ha] at this
    simpa [runSchedule] using this

theorem noMatchInv_blocked_without_timer (query : String) (event : List Event)
    (sched : List Action) (hno : ∀ e ∈ event, Contains e.Data query = false)
    (ht : Action.timer ∉ sched) : watchEvents event query sched = none := by
  have hinv := noMatchInv_run query sched _ (noMatchInv_init query event hno)
  have htimer := runSchedule_timer_of_not_mem query sched (initWatch event) ht
  obtain ⟨_, hpan, _, _, _, h4, h5⟩ := hinv
  unfold watchEvents watchOutcome
  cases hmain : (runSchedule query (initWatch event) sched).main with
  | waiting => simp [hpan]
  | woken =>
    have := h4 hmain
    rw [htimer] at this
    cases this
  | returned r =>
    have := (h5 r hmain).1
    rw [htimer] at this
    cases this

theorem matcher_skips (query : String) (rest : List Event) :
    ∀ (pre : List Event) (n : Nat), (∀ e ∈ pre, Contains e.Data query = false) →
      runSchedule query
          { counter := 1, pending := pre ++ rest, consumed := n, timer := .sleeping,
            main := .waiting, err := none, panicked := false }
          (List.replicate pre.length .matcher)
        = { counter := 1, pending := rest, consumed := n + pre.length, timer := .sleeping,
            main := .waiting, err := none, panicked := false } := by
  intro pre
  induction pre with
  | nil => intro n _; simp [runSchedule]
  | cons i pre ih =>
    intro n h
    have hi : Contains i.Data query = false := h i (by simp)
    have hr : ∀ e ∈ pre, Contains e.Data query = false := fun e he => h e (by simp [he])
    have hstep : step query
        { counter := 1, pending := i :: (pre ++ rest), consumed := n, timer := .sleeping,
          main := .waiting, err := none, panicked := false } .matcher
        = { counter := 1, pending := pre ++ rest, consumed := n + 1, timer := .sleeping,
            main := .waiting, err := none, panicked := false } := by
      simp [step, matcherStep, hi]
    have := ih (n + 1) hr
    simp only [List.length_cons, List.replicate_succ, runSchedule, List.foldl_cons,
      List.cons_append] at this ⊢
    rw [hstep, this]
    simp [Nat.add_assoc, Nat.add_comm 1]

theorem first_match_returns_nil (query : String) (pre post : List Event) (m : Event)
    (hpre : ∀ e ∈ pre, Contains e.Data query = false) (hm : Contains m.Data query = true) :
    watchEvents (pre ++ m :: post) query
      (List.replicate (pre.length + 1) .matcher ++ [.main, .main]) = some .nil := by
  have hskip := matcher_skips query (m :: post) pre 0 hpre
  unfold watchEvents
  rw [List.replicate_succ', List.append_assoc, runSchedule_append]
  simp only [initWatch]
  rw [hskip]
  simp [runSchedule, step, matcherStep, mainStep, wgDone, watchOutcome, hm]

theorem RunE_sync_failed (env : Env) (f : Flags) (sched : List Action) (e : String)
    (tr : List Request) (h : syncPhase env f = (.error e, tr)) :
    RunE env f sched = (some (.error e), tr) := by
  simp [RunE, h]

/-! ## Concrete runs -/

/-- Two events that both carry the token the command watches for. -/
def twoMatches : List Event :=
  [{ Data := "Smi conformance test passed" }, { Data := "Smi conformance test passed" }]

/-- The event sequence of the end-to-end example, followed by one more event. -/
def tokenThenMore : List Event :=
  [{ Data := "foo" }, { Data := "bar" }, { Data := "expected-token-123" }, { Data := "later" }]

/-- Flags of a run whose `namespace` variable holds `default`. -/
def flagsDefaultNamespace : Flags :=
  { spec := "smi", adapterURL := "meshery-osm:10010", namespaceVar := "default",
    tokenPath := "auth.json", watch := false }

/-- The configuration `okEnv` returns. -/
def localCfg : MesheryCtlConfig := { baseMesheryURL := "http://localhost:9081" }

/-- The sync request a run under `okEnv` sends. -/
def localSyncRequest : Request :=
  { method := "GET", url := "http://localhost:9081/api/system/sync",
    header := [("Content-Type", "application/x-www-form-urlencoded;charset=UTF-8"),
      ("Authorization", "auth.json")],
    body := "" }

/-- The `/api/mesh/ops` request a run under `okEnv` sends for a form body. -/
def localOpsRequest (body : String) : Request :=
  { method := "POST", url := "http://localhost:9081/api/mesh/ops",
    header := [("Content-Type", "application/x-www-form-urlencoded;charset=UTF-8"),
      ("Authorization", "auth.json")],
    body := body }

/-- The events request a run under `okEnv` sends. -/
def localEventsRequest : Request :=
  { method := "GET", url := "http://localhost:9081/api/events?client=cli_validate",
    header := [("Accept", "text/event-stream"), ("Authorization", "auth.json")],
    body := "" }

/-! ## The claims -/

/-- Claim C1, evaluated on the code: with two events that contain the query, the matcher
goroutine calls `wg.Done()` twice on a counter initialised to one, so the counter reaches `-1`
and the process panics; a match followed by the timer expiry does the same. -/
theorem waitgroup_counter_goes_negative :
    (runSchedule "Smi conformance test" (initWatch twoMatches) [.matcher, .matcher]).counter = -1 ∧
    (runSchedule "Smi conformance test" (initWatch twoMatches) [.matcher, .matcher]).panicked
      = true ∧
    watchEvents twoMatches "Smi conformance test" [.matcher, .matcher]
      = some (.panic "sync: negative WaitGroup counter") ∧
    (runSchedule "Smi conformance test" (initWatch [{ Data := "Smi conformance test passed" }])
      [.matcher, .main, .main, .timer, .timer]).counter = -1 := by
  decide

/-- Claim C2, evaluated on the code: on the events `foo`, `bar`, `expected-token-123`, `later`
with the token `expected-token`, the caller returns nil after the third event, and the matcher
goroutine still receives the fourth event afterwards. -/
theorem matcher_consumes_after_match :
    watchEvents tokenThenMore "expected-token" [.matcher, .matcher, .matcher, .main, .main]
      = some .nil ∧
    (runSchedule "expected-token" (initWatch tokenThenMore)
      [.matcher, .matcher, .matcher, .main, .main]).consumed = 3 ∧
    (runSchedule "expected-token" (initWatch tokenThenMore)
      [.matcher, .matcher, .matcher, .main, .main, .matcher]).consumed = 4 ∧
    (runSchedule "expected-token" (initWatch tokenThenMore)
      [.matcher, .matcher, .matcher, .main, .main, .matcher]).pending = [] := by
  decide

/-- Claim C3: when no event of the sequence contains the query, under every schedule the
caller is either still blocked or has returned the error `timeout` (never nil, never a panic);
it gets past `wg.Wait()` only after the timeout goroutine has finished; and from every reachable
state the two steps of the timer followed by the two steps of the caller return `timeout`. -/
theorem no_match_resolves_only_by_timeout (event : List Event) (query : String)
    (hno : ∀ e ∈ event, Contains e.Data query = false) :
    (∀ sched, watchEvents event query sched = none ∨
      watchEvents event query sched = some (.error "timeout")) ∧
    (∀ sched, (runSchedule query (initWatch event) sched).main ≠ .waiting →
      (runSchedule query (initWatch event) sched).timer = .finished) ∧
    (∀ sched, watchEvents event query (sched ++ [.timer, .timer, .main, .main])
      = some (.error "timeout")) := by
  have hinv : ∀ sched, NoMatchInv query (runSchedule query (initWatch event) sched) :=
    fun sched => noMatchInv_run query sched _ (noMatchInv_init query event hno)
  refine ⟨fun sched => noMatchInv_outcome query _ (hinv sched), ?_, ?_⟩
  · intro sched hm
    obtain ⟨_, _, _, _, _, h4, h5⟩ := hinv sched
    cases hmain : (runSchedule query (initWatch event) sched).main with
    | waiting => exact absurd hmain hm
    | woken => exact h4 hmain
    | returned r => exact (h5 r hmain).1
  · intro sched
    unfold watchEvents
    rw [runSchedule_append]
    exact noMatchInv_timer_fires query _ (hinv sched)

theorem no_match_resolves_only_by_timeout_witness :
    watchEvents [{ Data := "foo" }, { Data := "bar" }] "expected-token"
      ([.matcher, .main] ++ [.timer, .timer, .main, .main]) = some (.error "timeout") :=
  (no_match_resolves_only_by_timeout [{ Data := "foo" }, { Data := "bar" }] "expected-token"
    (by decide)).2.2 [.matcher, .main]

/-- Claim C4, refuted as stated: a stream whose conversion reports the error `unexpected EOF`
after one event makes `waitForValidateResponse` return the error `timeout`, the very value it
returns for a healthy stream that never matches. -/
theorem stream_failure_returns_timeout :
    (waitForValidateResponse (okEnv [{ Data := "foo" }] (some "unexpected EOF"))
      (flagsOf "smi" "meshery-osm:10010" true) localCfg "Smi conformance test"
      [.matcher, .timer, .timer, .main, .main]).1 = some (.error "timeout") ∧
    (waitForValidateResponse (okEnv [{ Data := "foo" }] (some "unexpected EOF"))
      (flagsOf "smi" "meshery-osm:10010" true) localCfg "Smi conformance test"
      [.matcher, .timer, .timer, .main, .main]).1
      = (waitForValidateResponse (okEnv [{ Data := "foo" }] none)
        (flagsOf "smi" "meshery-osm:10010" true) localCfg "Smi conformance test"
        [.matcher, .timer, .timer, .main, .main]).1 := by
  decide

/-- Claim C4, amended: when the events request succeeds and the stream ends without an event
that contains the query, whatever error the conversion reported, the caller never gets a result
other than the error `timeout`; it stays blocked in `wg.Wait()` until the timeout goroutine has
finished (under a schedule without a timer step it has no result), and it gets `timeout` once
the timer and the caller have taken their steps. -/
theorem stream_failure_waits_for_timeout (env : Env) (f : Flags) (mctlCfg : MesheryCtlConfig)
    (query : String) (req0 req : Request) (res : Response) (event : List Event)
    (convErr : Option String)
    (h0 : NewRequest env "GET" (mctlCfg.baseMesheryURL ++ "/api/events?client=cli_validate") ""
      = .ok req0)
    (h1 : AddAuthDetails env (req0.headerAdd "Accept" "text/event-stream") f.tokenPath = .ok req)
    (h2 : env.clientDo req = .ok res)
    (hconv : env.convertRespToSSE res = (event, convErr))
    (hno : ∀ e ∈ event, Contains e.Data query = false) :
    (∀ sched, (waitForValidateResponse env f mctlCfg query sched).1 = none ∨
      (waitForValidateResponse env f mctlCfg query sched).1 = some (.error "timeout")) ∧
    (∀ sched, (waitForValidateResponse env f mctlCfg query
      (sched ++ [.timer, .timer, .main, .main])).1 = some (.error "timeout")) ∧
    (∀ sched, waitForValidateResponse env f mctlCfg query sched
      = (watchOutcome (runSchedule query (initWatch event) sched), [req])) ∧
    (∀ sched, (runSchedule query (initWatch event) sched).main ≠ .waiting →
      (runSchedule query (initWatch event) sched).timer = .finished) ∧
    (∀ sched, Action.timer ∉ sched →
      (waitForValidateResponse env f mctlCfg query sched).1 = none) := by
  have hev : (env.convertRespToSSE res).1 = event := by rw [hconv]
  have hinv : ∀ sched, NoMatchInv query (runSchedule query (initWatch event) sched) :=
    fun sched => noMatchInv_run query sched _ (noMatchInv_init query event hno)
  have hw : ∀ sched, waitForValidateResponse env f mctlCfg query sched
      = (watchEvents event query sched, [req]) := by
    intro sched
    rw [waitForValidateResponse_ok env f mctlCfg query sched req0 req res h0 h1 h2, hev]
  refine ⟨?_, ?_, ?_, ?_, ?_⟩
  · intro sched
    rw [hw]
    exact noMatchInv_outcome query _ (hinv sched)
  · intro sched
    rw [hw]
    simp only [watchEvents]
    rw [runSchedule_append]
    exact noMatchInv_timer_fires query _ (hinv sched)
  · intro sched
    rw [hw]
    rfl
  · intro sched hm
    obtain ⟨_, _, _, _, _, h4, h5⟩ := hinv sched
    cases hmain : (runSchedule query (initWatch event) sched).main with
    | waiting => exact absurd hmain hm
    | woken => exact h4 hmain
    | returned r => exact (h5 r hmain).1
  · intro sched ht
    rw [hw]
    exact noMatchInv_blocked_without_timer query event sched hno ht

theorem stream_failure_waits_for_timeout_witness :
    (waitForValidateResponse (okEnv [{ Data := "foo" }] (some "unexpected EOF"))
      (flagsOf "smi" "meshery-osm:10010" true) localCfg "Smi conformance test"
      ([.matcher] ++ [.timer, .timer, .main, .main])).1 = some (.error "timeout") ∧
    (waitForValidateResponse (okEnv [{ Data := "foo" }] (some "unexpected EOF"))
      (flagsOf "smi" "meshery-osm:10010" true) localCfg "Smi conformance test"
      [.matcher, .main, .main]).1 = none := by
  have h := stream_failure_waits_for_timeout (okEnv [{ Data := "foo" }] (some "unexpected EOF"))
    (flagsOf "smi" "meshery-osm:10010" true) localCfg "Smi conformance test"
    { method := "GET", url := "http://localhost:9081/api/events?client=cli_validate",
      header := [], body := "" }
    localEventsRequest { body := "http://localhost:9081/api/events?client=cli_validate" }
    [{ Data := "foo" }] (some "unexpected EOF") rfl rfl rfl rfl (by decide)
  exact ⟨h.2.1 [.matcher], h.2.2.2.2 [.matcher, .main, .main] (by decide)⟩

/-- Claim C5: for the specification `smi` and every adapter, the switch succeeds, the query of
the resulting form is `smi_conformance`, and every `/api/mesh/ops` request of the run carries
the encoding of that form. -/
theorem smi_resolves_smi_conformance (env : Env) (f : Flags) (sched : List Action)
    (hspec : f.spec = "smi") :
    specSwitch f.spec f.adapterURL (formData f.adapterURL)
        = .ok (opsForm f.adapterURL "smi_conformance") ∧
      Values.Get (opsForm f.adapterURL "smi_conformance") "query" = "smi_conformance" ∧
      ∀ r ∈ (RunE env f sched).2, isOpsRequest r →
        r.body = Values.Encode (opsForm f.adapterURL "smi_conformance") := by
  have hv : specSwitch f.spec f.adapterURL (formData f.adapterURL)
      = .ok (opsForm f.adapterURL "smi_conformance") := by
    simp [specSwitch, hspec, formData_set_query]
  refine ⟨hv, by simp [opsForm, Values.Get], ?_⟩
  intro r hr hops
  obtain ⟨data, hd, hb⟩ := RunE_ops_body env f sched r hr hops
  rw [hv] at hd
  cases hd
  exact hb

theorem smi_resolves_smi_conformance_witness :
    (flagsOf "smi" "meshery-nsm:10004" false).spec = "smi" ∧
      (localOpsRequest
        "adapter=meshery-nsm%3A10004&customBody=&deleteOp=&namespace=meshery&query=smi_conformance").body
        = Values.Encode (opsForm "meshery-nsm:10004" "smi_conformance") :=
  ⟨rfl, (smi_resolves_smi_conformance (okEnv [] none) (flagsOf "smi" "meshery-nsm:10004" false) []
    rfl).2.2 _ (by decide) (by decide)⟩

/-- Claim C6, refuted as stated: with the specification `istio-vet` and the adapter
`meshery-osm:10010`, a run whose sync request is refused returns `connection refused`, which is
not the invalid-adapter error. -/
theorem istio_vet_run_can_fail_in_sync :
    RunE refusedEnv (flagsOf "istio-vet" "meshery-osm:10010" false) []
      = (some (.error "connection refused"), [localSyncRequest]) ∧
    ¬ InvalidAdapterError "connection refused" := by
  unfold InvalidAdapterError
  decide

/-- Claim C6, amended: for the specification `istio-vet`, the adapter `meshery-istio:10000`
resolves the query `istio-vet`, sent in the `/api/mesh/ops` form; with any other adapter the
switch returns `only Istio supports istio-vet operation`, which is what the run returns once the
sync phase has succeeded (when the sync phase fails the run returns that error instead); the
run never succeeds, and it sends no `/api/mesh/ops` request. -/
theorem istio_vet_requires_istio_adapter (env : Env) (f : Flags) (sched : List Action)
    (hspec : f.spec = "istio-vet") :
    (f.adapterURL = "meshery-istio:10000" →
      specSwitch f.spec f.adapterURL (formData f.adapterURL)
          = .ok (opsForm f.adapterURL "istio-vet") ∧
        Values.Get (opsForm f.adapterURL "istio-vet") "query" = "istio-vet" ∧
        ∀ r ∈ (RunE env f sched).2, isOpsRequest r →
          r.body = Values.Encode (opsForm f.adapterURL "istio-vet")) ∧
    (f.adapterURL ≠ "meshery-istio:10000" →
      specSwitch f.spec f.adapterURL (formData f.adapterURL)
          = .error "only Istio supports istio-vet operation" ∧
        InvalidAdapterError "only Istio supports istio-vet operation" ∧
        (∀ mctlCfg tr, syncPhase env f = (.ok mctlCfg, tr) →
          RunE env f sched = (some (.error "only Istio supports istio-vet operation"), tr)) ∧
        (∀ e tr, syncPhase env f = (.error e, tr) → RunE env f sched = (some (.error e), tr)) ∧
        (∃ e, (RunE env f sched).1 = some (.error e)) ∧
        ∀ r ∈ (RunE env f sched).2, ¬ isOpsRequest r) := by
  constructor
  · intro ha
    have hv : specSwitch f.spec f.adapterURL (formData f.adapterURL)
        = .ok (opsForm f.adapterURL "istio-vet") := by
      simp [specSwitch, hspec, ha, formData_set_query]
    refine ⟨hv, by simp [opsForm, Values.Get], ?_⟩
    intro r hr hops
    obtain ⟨data, hd, hb⟩ := RunE_ops_body env f sched r hr hops
    rw [hv] at hd
    cases hd
    exact hb
  · intro ha
    have hv : specSwitch f.spec f.adapterURL (formData f.adapterURL)
        = .error "only Istio supports istio-vet operation" := by
      simp [specSwitch, hspec, ha]
    obtain ⟨_, h2, h3⟩ := RunE_refused env f sched _ hv
    exact ⟨hv, rfl, h3, fun e tr hs => RunE_sync_failed env f sched e tr hs, h2,
      fun r hr => (RunE_refused_trace env f sched _ hv r hr).2.1⟩

theorem istio_vet_requires_istio_adapter_witness :
    (flagsOf "istio-vet" "meshery-osm:10010" true).spec = "istio-vet" ∧
      RunE (okEnv [] none) (flagsOf "istio-vet" "meshery-osm:10010" true) []
        = (some (.error "only Istio supports istio-vet operation"), [localSyncRequest]) :=
  ⟨rfl, ((istio_vet_requires_istio_adapter (okEnv [] none)
    (flagsOf "istio-vet" "meshery-osm:10010" true) [] rfl).2 (by decide)).2.2.1
      localCfg [localSyncRequest] rfl⟩

/-- Claim C7, refuted as stated: with the specification `smp`, a run that cannot read its
configuration returns `error processing config: no config`, which is not an unsupported-spec
error. -/
theorem smp_run_can_fail_in_config :
    RunE noConfigEnv (flagsOf "smp" "meshery-osm:10010" false) []
      = (some (.error "error processing config: no config"), []) ∧
    ¬ UnsupportedSpecError "error processing config: no config" := by
  unfold UnsupportedSpecError
  decide

/-- Claim C7, amended: for the specification `smp`, and for every specification other than
`smi`, `smp` and `istio-vet`, whatever the adapter, the switch returns one of the two
unsupported-spec errors (never the invalid-adapter error), which is what the run returns once
the sync phase has succeeded (when the sync phase fails the run returns that error instead);
the run never succeeds and sends no `/api/mesh/ops` request. -/
theorem unsupported_spec_is_refused (env : Env) (f : Flags) (sched : List Action)
    (hspec : f.spec = "smp" ∨ (f.spec ≠ "smi" ∧ f.spec ≠ "smp" ∧ f.spec ≠ "istio-vet")) :
    ∃ e, UnsupportedSpecError e ∧ ¬ InvalidAdapterError e ∧
      specSwitch f.spec f.adapterURL (formData f.adapterURL) = .error e ∧
      (∀ mctlCfg tr, syncPhase env f = (.ok mctlCfg, tr) →
        RunE env f sched = (some (.error e), tr)) ∧
      (∀ e1 tr, syncPhase env f = (.error e1, tr) → RunE env f sched = (some (.error e1), tr)) ∧
      (∃ e2, (RunE env f sched).1 = some (.error e2)) ∧
      ∀ r ∈ (RunE env f sched).2, ¬ isOpsRequest r := by
  rcases hspec with hsmp | ⟨h1, h2, h3⟩
  · have hv : specSwitch f.spec f.adapterURL (formData f.adapterURL)
        = .error "support for SMP coming in a future release" := by
      simp [specSwitch, hsmp]
    obtain ⟨_, k2, k3⟩ := RunE_refused env f sched _ hv
    exact ⟨_, Or.inl rfl, by unfold InvalidAdapterError; decide, hv, k3,
      fun e1 tr hs => RunE_sync_failed env f sched e1 tr hs, k2,
      fun r hr => (RunE_refused_trace env f sched _ hv r hr).2.1⟩
  · have hv : specSwitch f.spec f.adapterURL (formData f.adapterURL)
        = .error "specified specification not found or not yet supported" := by
      simp [specSwitch, h1, h2, h3]
    obtain ⟨_, k2, k3⟩ := RunE_refused env f sched _ hv
    exact ⟨_, Or.inr rfl, by unfold InvalidAdapterError; decide, hv, k3,
      fun e1 tr hs => RunE_sync_failed env f sched e1 tr hs, k2,
      fun r hr => (RunE_refused_trace env f sched _ hv r hr).2.1⟩

theorem unsupported_spec_is_refused_witness :
    (flagsOf "smp" "meshery-istio:10000" true).spec = "smp" ∧
      RunE (okEnv [] none) (flagsOf "smp" "meshery-istio:10000" true) []
        = (some (.error "support for SMP coming in a future release"), [localSyncRequest]) := by
  obtain ⟨e, _, _, hv, hrun, _⟩ := unsupported_spec_is_refused (okEnv [] none)
    (flagsOf "smp" "meshery-istio:10000" true) [] (Or.inl rfl)
  have h2 : specSwitch (flagsOf "smp" "meshery-istio:10000" true).spec
      (flagsOf "smp" "meshery-istio:10000" true).adapterURL
      (formData (flagsOf "smp" "meshery-istio:10000" true).adapterURL)
      = .error "support for SMP coming in a future release" := rfl
  rw [h2] at hv
  cases hv
  exact ⟨rfl, hrun localCfg [localSyncRequest] rfl⟩

/-- Claim C8, refuted as stated: a run with the specification `smp` returns the validation
error after it has sent the sync request, so the trace of requests is not empty. -/
theorem validation_error_follows_sync_request :
    RunE (okEnv [] none) (flagsOf "smp" "meshery-osm:10010" false) []
      = (some (.error "support for SMP coming in a future release"), [localSyncRequest]) ∧
    (RunE (okEnv [] none) (flagsOf "smp" "meshery-osm:10010" false) []).2 ≠ [] := by
  decide

/-- Claim C8, amended: for every pair the switch rejects (`smp`, an unknown specification, or
`istio-vet` with an adapter other than `meshery-istio:10000`), every request of the run is the
sync request (none goes to `/api/mesh/ops` or to the event stream), there is at most one, and a
run that gets through the sync phase returns the validation error with exactly that one sync
request sent. -/
theorem validation_error_before_ops_and_events (env : Env) (f : Flags) (sched : List Action)
    (hrej : f.spec = "smp" ∨ (f.spec ≠ "smi" ∧ f.spec ≠ "smp" ∧ f.spec ≠ "istio-vet") ∨
      (f.spec = "istio-vet" ∧ f.adapterURL ≠ "meshery-istio:10000")) :
    ∃ e, specSwitch f.spec f.adapterURL (formData f.adapterURL) = .error e ∧
      (∀ r ∈ (RunE env f sched).2, isSyncRequest r ∧ ¬ isOpsRequest r ∧ ¬ isEventsRequest r) ∧
      (RunE env f sched).2.length ≤ 1 ∧
      ∀ mctlCfg tr, syncPhase env f = (.ok mctlCfg, tr) →
        RunE env f sched = (some (.error e), tr) ∧ ∃ r, tr = [r] ∧ isSyncRequest r := by
  have key : ∀ e, specSwitch f.spec f.adapterURL (formData f.adapterURL) = .error e →
      (∀ r ∈ (RunE env f sched).2, isSyncRequest r ∧ ¬ isOpsRequest r ∧ ¬ isEventsRequest r) ∧
      (RunE env f sched).2.length ≤ 1 ∧
      ∀ mctlCfg tr, syncPhase env f = (.ok mctlCfg, tr) →
        RunE env f sched = (some (.error e), tr) ∧ ∃ r, tr = [r] ∧ isSyncRequest r := by
    intro e hv
    obtain ⟨k1, _, k3⟩ := RunE_refused env f sched e hv
    refine ⟨RunE_refused_trace env f sched e hv, ?_, ?_⟩
    · rw [k1]; exact syncPhase_trace_length env f
    · intro mctlCfg tr hs
      exact ⟨k3 mctlCfg tr hs, syncPhase_ok_trace env f mctlCfg tr hs⟩
  rcases hrej with hsmp | ⟨h1, h2, h3⟩ | ⟨hi, ha⟩
  · have hv : specSwitch f.spec f.adapterURL (formData f.adapterURL)
        = .error "support for SMP coming in a future release" := by
      simp [specSwitch, hsmp]
    exact ⟨_, hv, key _ hv⟩
  · have hv : specSwitch f.spec f.adapterURL (formData f.adapterURL)
        = .error "specified specification not found or not yet supported" := by
      simp [specSwitch, h1, h2, h3]
    exact ⟨_, hv, key _ hv⟩
  · have hv : specSwitch f.spec f.adapterURL (formData f.adapterURL)
        = .error "only Istio supports istio-vet operation" := by
      simp [specSwitch, hi, ha]
    exact ⟨_, hv, key _ hv⟩

theorem validation_error_before_ops_and_events_witness :
    (flagsOf "nighthawk" "meshery-osm:10010" true).spec ≠ "smi" ∧
      RunE (okEnv [] none) (flagsOf "nighthawk" "meshery-osm:10010" true) []
        = (some (.error "specified specification not found or not yet supported"),
            [localSyncRequest]) := by
  obtain ⟨e, hv, _, _, hrun⟩ := validation_error_before_ops_and_events (okEnv [] none)
    (flagsOf "nighthawk" "meshery-osm:10010" true) [] (Or.inr (Or.inl (by decide)))
  have h2 : specSwitch (flagsOf "nighthawk" "meshery-osm:10010" true).spec
      (flagsOf "nighthawk" "meshery-osm:10010" true).adapterURL
      (formData (flagsOf "nighthawk" "meshery-osm:10010" true).adapterURL)
      = .error "specified specification not found or not yet supported" := rfl
  rw [h2] at hv
  cases hv
  exact ⟨by decide, (hrun localCfg [localSyncRequest] rfl).1⟩

/-- Claim C9, refuted as stated: a run whose `namespace` variable holds `default` posts a form
whose `namespace` field is `meshery`, which is not the encoding of the five fields with the
namespace of the caller. -/
theorem ops_form_ignores_namespace_variable :
    localOpsRequest
        "adapter=meshery-osm%3A10010&customBody=&deleteOp=&namespace=meshery&query=smi_conformance"
      ∈ (RunE (okEnv [] none) flagsDefaultNamespace []).2 ∧
    (∀ r ∈ (RunE (okEnv [] none) flagsDefaultNamespace []).2, isOpsRequest r →
      r.body ≠ Values.Encode [("adapter", [flagsDefaultNamespace.adapterURL]),
        ("customBody", [""]), ("deleteOp", [""]),
        ("namespace", [flagsDefaultNamespace.namespaceVar]), ("query", ["smi_conformance"])]) := by
  decide

/-- Claim C9, amended: every `/api/mesh/ops` request of a run carries the form encoding of
exactly five fields, `adapter` with the adapter flag, `customBody` and `deleteOp` empty,
`namespace` the constant `meshery`, and `query` the query the switch resolved (`smi_conformance`
or `istio-vet`). -/
theorem ops_body_is_five_field_form (env : Env) (f : Flags) (sched : List Action) (r : Request)
    (hr : r ∈ (RunE env f sched).2) (hops : isOpsRequest r) :
    ∃ q, (q = "smi_conformance" ∨ q = "istio-vet") ∧
      specSwitch f.spec f.adapterURL (formData f.adapterURL)
        = .ok [("adapter", [f.adapterURL]), ("customBody", [""]), ("deleteOp", [""]),
            ("namespace", ["meshery"]), ("query", [q])] ∧
      r.body = Values.Encode [("adapter", [f.adapterURL]), ("customBody", [""]),
        ("deleteOp", [""]), ("namespace", ["meshery"]), ("query", [q])] ∧
      r.body = "adapter=" ++ QueryEscape f.adapterURL
        ++ "&customBody=&deleteOp=&namespace=meshery&query=" ++ q := by
  obtain ⟨data, hd, hb⟩ := RunE_ops_body env f sched r hr hops
  have e1 : QueryEscape "smi_conformance" = "smi_conformance" := by decide
  have e2 : QueryEscape "istio-vet" = "istio-vet" := by decide
  rcases specSwitch_ok f.spec f.adapterURL data hd with ⟨_, hdata⟩ | ⟨_, _, hdata⟩
  · subst hdata
    refine ⟨"smi_conformance", Or.inl rfl, hd, hb, ?_⟩
    rw [hb, encode_opsForm, e1]
  · subst hdata
    refine ⟨"istio-vet", Or.inr rfl, hd, hb, ?_⟩
    rw [hb, encode_opsForm, e2]

theorem ops_body_is_five_field_form_witness :
    (localOpsRequest
      "adapter=meshery-osm%3A10010&customBody=&deleteOp=&namespace=meshery&query=smi_conformance").body
      = "adapter=" ++ QueryEscape "meshery-osm:10010"
        ++ "&customBody=&deleteOp=&namespace=meshery&query=" ++ "smi_conformance" := by
  obtain ⟨q, _, hv, _, hb⟩ := ops_body_is_five_field_form (okEnv [] none) flagsDefaultNamespace []
    (localOpsRequest
      "adapter=meshery-osm%3A10010&customBody=&deleteOp=&namespace=meshery&query=smi_conformance")
    (by decide) (by decide)
  have h2 : specSwitch flagsDefaultNamespace.spec flagsDefaultNamespace.adapterURL
      (formData flagsDefaultNamespace.adapterURL)
      = .ok [("adapter", ["meshery-osm:10010"]), ("customBody", [""]), ("deleteOp", [""]),
          ("namespace", ["meshery"]), ("query", ["smi_conformance"])] := rfl
  rw [h2] at hv
  have hq : q = "smi_conformance" := by
    simp [flagsDefaultNamespace] at hv
    exact hv.symm
  subst hq
  exact hb

/-- Claim C10, refuted as stated: with the watch enabled and an event that contains the token
`Smi conformance test`, a run in which the timeout goroutine writes `err` after the match and
before the caller reads it returns the wrapped timeout error, not nil. -/
theorem watch_match_can_return_timeout :
    Contains "Smi conformance test passed" "Smi conformance test" = true ∧
    (RunE (okEnv [{ Data := "Smi conformance test passed" }] none)
      (flagsOf "smi" "meshery-osm:10010" true) [.matcher, .timer, .main, .main]).1
      = some (.error "error verifying installation: timeout") := by
  decide

/-- Claim C10, amended: once the sync phase, the switch and the `/api/mesh/ops` call have
succeeded, a run with the watch enabled returns what `waitForValidateResponse` returns for the
constant token `Smi conformance test`, whatever the specification (nil stays nil, an error is
wrapped with `error verifying installation`), and sends that call's requests after the first
two. When the events request succeeds, that result is: the wrapped timeout error if no event
contains the token (never nil, and reached once the timer and the caller have stepped); nil if
the matcher receives the events up to the first one that contains the token and the caller then
returns while the timer goroutine has not run. A run with the watch disabled returns nil and
sends no events request. -/
theorem watch_token_is_constant (env : Env) (f : Flags) (sched : List Action)
    (mctlCfg : MesheryCtlConfig) (tr tr2 : List Request) (data : Values) (body : String)
    (hs : syncPhase env f = (.ok mctlCfg, tr))
    (hv : specSwitch f.spec f.adapterURL (formData f.adapterURL) = .ok data)
    (ho : opsPhase env f mctlCfg data = (.ok body, tr2)) :
    (f.watch = true →
      (RunE env f sched).1
          = (match (waitForValidateResponse env f mctlCfg "Smi conformance test" sched).1 with
            | some (.error e) => some (.error ("error verifying installation: " ++ e))
            | r => r) ∧
        (RunE env f sched).2
          = tr ++ tr2 ++ (waitForValidateResponse env f mctlCfg "Smi conformance test" sched).2 ∧
        ∀ req0 req res,
          NewRequest env "GET" (mctlCfg.baseMesheryURL ++ "/api/events?client=cli_validate") ""
            = .ok req0 →
          AddAuthDetails env (req0.headerAdd "Accept" "text/event-stream") f.tokenPath
            = .ok req →
          env.clientDo req = .ok res →
          ((∀ e ∈ (env.convertRespToSSE res).1, Contains e.Data "Smi conformance test" = false) →
            ((RunE env f sched).1 = none ∨
              (RunE env f sched).1 = some (.error "error verifying installation: timeout")) ∧
            (RunE env f (sched ++ [.timer, .timer, .main, .main])).1
              = some (.error "error verifying installation: timeout")) ∧
          (∀ pre m post, (env.convertRespToSSE res).1 = pre ++ m :: post →
            (∀ e ∈ pre, Contains e.Data "Smi conformance test" = false) →
            Contains m.Data "Smi conformance test" = true →
            (RunE env f (List.replicate (pre.length + 1) .matcher ++ [.main, .main])).1
              = some .nil)) ∧
    (f.watch = false →
      RunE env f sched = (some .nil, tr ++ tr2) ∧
        ∀ r ∈ (RunE env f sched).2, ¬ isEventsRequest r) := by
  have hrun : ∀ sc, RunE env f sc
      = ((watchPhase env f mctlCfg sc).1, tr ++ tr2 ++ (watchPhase env f mctlCfg sc).2) := by
    intro sc
    simp [RunE, hs, hv, ho]
  constructor
  · intro hw
    have hwrap : ∀ sc, (RunE env f sc).1
        = (match (waitForValidateResponse env f mctlCfg "Smi conformance test" sc).1 with
          | some (.error e) => some (.error ("error verifying installation: " ++ e))
          | r => r) := by
      intro sc
      rw [hrun]
      unfold watchPhase
      rw [if_pos hw]
      rcases hwait : waitForValidateResponse env f mctlCfg "Smi conformance test" sc
        with ⟨(_ | _ | e | m), trw⟩ <;> simp
    refine ⟨hwrap sched, ?_, ?_⟩
    · rw [hrun]
      unfold watchPhase
      rw [if_pos hw]
      rcases hwait : waitForValidateResponse env f mctlCfg "Smi conformance test" sched
        with ⟨(_ | _ | e | m), trw⟩ <;> simp
    · intro req0 req res h0 h1 h2
      have hwait : ∀ sc, (waitForValidateResponse env f mctlCfg "Smi conformance test" sc).1
          = watchEvents (env.convertRespToSSE res).1 "Smi conformance test" sc := by
        intro sc
        rw [waitForValidateResponse_ok env f mctlCfg _ sc req0 req res h0 h1 h2]
      constructor
      · intro hno
        have hinv : ∀ sc, NoMatchInv "Smi conformance test"
            (runSchedule "Smi conformance test" (initWatch (env.convertRespToSSE res).1) sc) :=
          fun sc => noMatchInv_run _ sc _ (noMatchInv_init _ _ hno)
        constructor
        · rw [hwrap, hwait]
          rcases noMatchInv_outcome _ _ (hinv sched) with h | h
          · left
            simp only [watchEvents]
            rw [h]
          · right
            simp only [watchEvents]
            rw [h]
            rfl
        · rw [hwrap, hwait]
          simp only [watchEvents]
          rw [runSchedule_append, noMatchInv_timer_fires _ _ (hinv sched)]
          rfl
      · intro pre m post hev hpre hm
        rw [hwrap, hwait, hev, first_match_returns_nil _ pre post m hpre hm]
  · intro hw
    have hw2 : watchPhase env f mctlCfg sched = (some .nil, []) := by
      simp [watchPhase, hw]
    rw [hrun, hw2]
    refine ⟨by simp, ?_⟩
    intro r hr
    simp only [List.append_nil, List.mem_append] at hr
    rcases hr with hr | hr
    · have := syncPhase_trace env f
      rw [hs] at this
      exact sync_not_events r (this r hr)
    · have := opsPhase_trace env f mctlCfg data
      rw [ho] at this
      exact ops_not_events r (this r hr).1

theorem watch_token_is_constant_witness :
    (flagsOf "istio-vet" "meshery-istio:10000" true).watch = true ∧
      (RunE (okEnv [{ Data := "istio-vet finished" }] none)
        (flagsOf "istio-vet" "meshery-istio:10000" true)
        ([.matcher] ++ [.timer, .timer, .main, .main])).1
        = some (.error "error verifying installation: timeout") ∧
      (RunE (okEnv [{ Data := "foo" }, { Data := "Smi conformance test passed" }] none)
        (flagsOf "istio-vet" "meshery-istio:10000" true)
        (List.replicate ([{ Data := "foo" }] : List Event).length.succ .matcher
          ++ [.main, .main])).1 = some .nil := by
  have h1 := ((watch_token_is_constant (okEnv [{ Data := "istio-vet finished" }] none)
    (flagsOf "istio-vet" "meshery-istio:10000" true) [.matcher]
    localCfg [localSyncRequest]
    [localOpsRequest
      "adapter=meshery-istio%3A10000&customBody=&deleteOp=&namespace=meshery&query=istio-vet"]
    (opsForm "meshery-istio:10000" "istio-vet") "http://localhost:9081/api/mesh/ops"
    rfl rfl rfl).1 rfl).2.2
    { method := "GET", url := "http://localhost:9081/api/events?client=cli_validate",
      header := [], body := "" }
    localEventsRequest { body := "http://localhost:9081/api/events?client=cli_validate" }
    rfl rfl rfl
  have h2 := ((watch_token_is_constant
    (okEnv [{ Data := "foo" }, { Data := "Smi conformance test passed" }] none)
    (flagsOf "istio-vet" "meshery-istio:10000" true) []
    localCfg [localSyncRequest]
    [localOpsRequest
      "adapter=meshery-istio%3A10000&customBody=&deleteOp=&namespace=meshery&query=istio-vet"]
    (opsForm "meshery-istio:10000" "istio-vet") "http://localhost:9081/api/mesh/ops"
    rfl rfl rfl).1 rfl).2.2
    { method := "GET", url := "http://localhost:9081/api/events?client=cli_validate",
      header := [], body := "" }
    localEventsRequest { body := "http://localhost:9081/api/events?client=cli_validate" }
    rfl rfl rfl
  exact ⟨rfl, (h1.1 (by decide)).2,
    h2.2 [{ Data := "foo" }] { Data := "Smi conformance test passed" } [] rfl (by decide)
      (by decide)⟩

end Mesh
